import Mathlib

/-!
Verification of the catalog / query logic of the openonehtml repository.

The repository contains three variants of the same cataloging logic:
* `Server` — the Express server (`src/unnamed/part_000`, a `server.js`):
  routes `/api/files`, `/api/files/:id`, `/api/tags`, `/api/models`,
  `/api/categories` and the shared helper `updateStats`.
* `DataManager` — the static-pages browser variant
  (`src/cursor-sonic/static-pages/js/data-manager.js`); its `getFiles`,
  `updateStats`, `addTag`, `addModel`, `addCategory` bodies are line-for-line
  the same logic as the server routes, and it additionally has `deleteTag`
  and `deleteCategory`.
* `Components` — the UI layer (`src/docs/static-pages/js/components.js`)
  with its own `deleteTag` / `deleteModel` guards.
* `DatabaseManager` — the CLI/database variant
  (`src/trae-trash/utils/database-manager.js`) whose `editTag` renames a tag
  by rewriting file records, and whose `addHTMLFile` mutates in memory and
  then persists.

Wall-clock values (`Date.now()`, ISO timestamps) are passed in explicitly as
`now : Nat` parameters; fields that no modelled operation reads or writes
(upload time, encrypted file name, file size) are omitted from the records.
JavaScript truthiness tests on strings (`if (name)`) are modelled as
emptiness tests, and on optional request parameters as `Option`.
-/

/-- A file record as stored in `data.files` by the server variant
(`src/unnamed/part_000`, upload route) and the static `DataManager`.
`category` and `model` are free-text strings and `tags` is a list of
tag-id strings, exactly as the JS objects hold them. -/
structure JFile where
  id : String
  originalName : String
  title : String
  description : String
  category : String
  background : String
  prompt : String
  model : String
  tags : List String
  status : String
  accessCount : Nat
deriving Repr, DecidableEq

/-- A preset tag as created by `POST /api/tags` / `DataManager.addTag`. -/
structure PresetTag where
  id : String
  name : String
  color : String
  description : String
  usageCount : Nat
deriving Repr, DecidableEq

/-- A preset model as created by `POST /api/models` / `DataManager.addModel`. -/
structure PresetModel where
  id : String
  name : String
  description : String
  usageCount : Nat
deriving Repr, DecidableEq

/-- A category entry as created by `POST /api/categories` /
`DataManager.addCategory`. -/
structure PresetCategory where
  id : String
  name : String
  description : String
  usageCount : Nat
deriving Repr, DecidableEq

/-- The `settings` block maintained by `updateStats`. -/
structure Settings where
  totalFiles : Nat
  totalTags : Nat
  totalModels : Nat
  totalCategories : Nat
deriving Repr, DecidableEq

/-- The JSON document `data.json`: files plus the three preset collections. -/
structure AppData where
  files : List JFile
  preset_tags : List PresetTag
  preset_models : List PresetModel
  categories : List PresetCategory
  settings : Settings
deriving Repr, DecidableEq

namespace Server

/-- `categories.add(x)` on a JS `Set` built by iteration: append if absent. -/
def jsSetAdd (s : List String) (x : String) : List String :=
  if x ∈ s then s else s ++ [x]

/-- The `Set` of truthy `file.category` values built by the
`files.forEach` loop inside `updateStats` (all files, deleted included). -/
def collectCategories (files : List JFile) : List String :=
  files.foldl (fun acc f => if f.category ≠ "" then jsSetAdd acc f.category else acc) []

/-- `updateStats` from `src/unnamed/part_000` lines 74–91 (the static
`DataManager.updateStats` is the same computation): `totalFiles` counts
files whose status is not deleted, `totalTags`/`totalModels` are the raw
lengths of the preset lists, and `totalCategories` is the size of the set
of truthy free-text `file.category` values over all files. -/
def updateStats (d : AppData) : AppData :=
  { d with settings :=
    { totalFiles := (d.files.filter (fun f => f.status ≠ "deleted")).length
      totalTags := d.preset_tags.length
      totalModels := d.preset_models.length
      totalCategories := (collectCategories d.files).length } }

end Server

/-- One element of the regular expression the search code builds from a
keyword by `keyword.replace(/\*/g, ".*").replace(/\?/g, ".")`:
`anyRun` is `.*`, `anyOne` is `.` (from `?` or a literal dot left
unescaped in the keyword), `lit c` is an ordinary character. -/
inductive Tok where
  | anyRun : Tok
  | anyOne : Tok
  | lit : Char → Tok
deriving Repr, DecidableEq

/-- Is `c` outside the set of JS regex metacharacters that keep a special
meaning after the code's two replaces? The code passes each keyword to
`new RegExp` unescaped, so `+ | ( ) [ ] \x7b \x7d ^ $ \` would retain
their regex semantics (or make the pattern invalid); on characters for
which this predicate holds the compiled pattern consists exactly of
literals, `.` (from `?` or a literal dot) and `.*` (from `*`), and
`new RegExp` cannot throw. The text-filter theorem is stated on search
strings within this fragment. -/
def plainRegexChar (c : Char) : Bool :=
  !(c ∈ ['+', '|', '(', ')', '[', ']', '\x7b', '\x7d', '^', '$', '\\'])

/-- The token list of the regex the code compiles from a keyword
(a keyword is a list of characters): `*` becomes `.*`, `?` becomes `.`,
and every other character is passed through unescaped, so a literal `.`
in the keyword also acts as `.` in the regex. This is the exact
semantics of the compiled pattern for keywords of `plainRegexChar`
characters; outside that fragment the surviving metacharacters listed at
`plainRegexChar` would need full JS regex semantics, which this model
does not assign, and every theorem quantifying over search strings
carries the fragment as a hypothesis. -/
def keywordToks (kw : List Char) : List Tok :=
  kw.map (fun c =>
    if c = '*' then Tok.anyRun
    else if c = '?' then Tok.anyOne
    else if c = '.' then Tok.anyOne
    else Tok.lit c)

/-- Modelled from the spec: the spec instead asks that each keyword be
built by "escaping regex metacharacters except `*` and `?`", so under the
spec a literal `.` matches only a dot. This definition follows the spec
wording and exists to be compared against `keywordToks`. -/
def specKeywordToks (kw : List Char) : List Tok :=
  kw.map (fun c =>
    if c = '*' then Tok.anyRun
    else if c = '?' then Tok.anyOne
    else Tok.lit c)

/-- Does the token list match some prefix of the character list?
`anyRun` (the regex `.*`) may swallow any prefix, so it tries every tail. -/
def tokMatchPre : List Tok → List Char → Bool
  | [], _ => true
  | Tok.anyRun :: ts, cs => cs.tails.any (fun cs2 => tokMatchPre ts cs2)
  | Tok.anyOne :: _, [] => false
  | Tok.anyOne :: ts, _ :: cs => tokMatchPre ts cs
  | Tok.lit _ :: _, [] => false
  | Tok.lit a :: ts, c :: cs => a == c && tokMatchPre ts cs

/-- `regex.test(text)` for an anchor-free pattern: the token list matches
starting at some offset (unanchored substring search). -/
def tokSearch (ts : List Tok) (cs : List Char) : Bool :=
  cs.tails.any (fun cs2 => tokMatchPre ts cs2)

/-- One keyword tested against the searchable text, as the code does with
`new RegExp(..., "i").test(searchText)` (both sides already lower-cased). -/
def keywordMatch (kw : List Char) (text : List Char) : Bool :=
  tokSearch (keywordToks kw) text

/-- Modelled from the spec: `keywordMatch` with the spec's escaped pattern. -/
def specKeywordMatch (kw : List Char) (text : List Char) : Bool :=
  tokSearch (specKeywordToks kw) text

/-- `searchTerm.toLowerCase().split(/\s+/).filter(k => k.length > 0)`:
lower-case, split at whitespace, drop empty pieces. -/
def splitKeywords (searchTerm : List Char) : List (List Char) :=
  ((searchTerm.map Char.toLower).splitOnP (fun c => c.isWhitespace)).filter
    (fun k => k ≠ [])

/-- `search.trim()`: drop whitespace from both ends. -/
def trimChars (l : List Char) : List Char :=
  ((l.dropWhile Char.isWhitespace).reverse.dropWhile Char.isWhitespace).reverse

/-- The `searchText` built per file: title, description, originalName,
background, prompt and free-text category joined with single spaces,
lower-cased. -/
def searchableText (f : JFile) : List Char :=
  (List.intercalate [' ']
    [f.title.data, f.description.data, f.originalName.data,
     f.background.data, f.prompt.data, f.category.data]).map Char.toLower

/-- `keywords.every(keyword => regex.test(searchText))`: AND over keywords. -/
def fileMatchesSearch (searchTerm : List Char) (f : JFile) : Bool :=
  (splitKeywords searchTerm).all (fun kw => keywordMatch kw (searchableText f))

/-- The query-string filters of `GET /api/files` / `DataManager.getFiles`.
`none` stands for an absent (or falsy) parameter. -/
structure Filters where
  search : Option String := none
  category : Option String := none
  tags : Option (List String) := none
  model : Option String := none

namespace Server

/-- `GET /api/files` from `src/unnamed/part_000` lines 165–216 (the static
`DataManager.getFiles` body is the same): drop deleted files, then apply
the text search (skipped when the trimmed term is empty), then category,
tags (at least one shared tag) and model filters. -/
def getFiles (flt : Filters) (files : List JFile) : List JFile :=
  let fs := files.filter (fun f => f.status ≠ "deleted")
  let fs := match flt.search with
    | none => fs
    | some s =>
      if trimChars s.data = [] then fs
      else fs.filter (fileMatchesSearch (trimChars s.data))
  let fs := match flt.category with
    | none => fs
    | some c => fs.filter (fun f => f.category = c)
  let fs := match flt.tags with
    | none => fs
    | some ts => fs.filter (fun f => ts.any (fun t => f.tags.contains t))
  match flt.model with
  | none => fs
  | some m => fs.filter (fun f => f.model = m)

end Server

example : keywordMatch "fo?".data "fooo".data = true := by decide
example : keywordMatch "fo?".data "fo".data = false := by decide
example : keywordMatch "f*r".data "falter".data = true := by decide
example : specKeywordMatch "a.b".data "axb".data = false := by decide
example : keywordMatch "a.b".data "axb".data = true := by decide

deriving instance DecidableEq for Except

/-- The failure modes the routes and managers surface (HTTP status codes
and thrown error messages). `inUse n` carries the count reported in the
"cannot delete, n files are using this" message. -/
inductive ApiError where
  | badRequest : ApiError
  | notFound : ApiError
  | forbidden : ApiError
  | inUse : Nat → ApiError
  | saveFailed : ApiError
deriving Repr, DecidableEq

namespace Server

/-- `GET /api/files/:id` (lines 219–233): find the first file with this id
that is not deleted; on a miss respond 404, on a hit bump `accessCount` on
that record in place and return it. -/
def getFile (id : String) (d : AppData) : Except ApiError (JFile × AppData) :=
  match d.files.find? (fun f => f.id = id ∧ f.status ≠ "deleted") with
  | none => .error .notFound
  | some f =>
    let f2 := { f with accessCount := f.accessCount + 1 }
    let files2 := d.files.replaceF (fun g =>
      if g.id = id ∧ g.status ≠ "deleted" then some f2 else none)
    .ok (f2, { d with files := files2 })

/-- Flip the status of the first file with the given id (the
`findIndex` / `status = "deleted"` pair in the delete route). -/
def markDeletedFirst (id : String) : List JFile → Option (List JFile)
  | [] => none
  | g :: gs =>
    if g.id = id then some ({ g with status := "deleted" } :: gs)
    else (markDeletedFirst id gs).map (g :: ·)

/-- `DELETE /api/files/:id` (lines 256–279): reject a wrong password with
403, 404 when no file (of any status) has the id, otherwise mark the first
match deleted — even if it already is — and recompute stats. -/
def deleteFile (password id : String) (d : AppData) : Except ApiError AppData :=
  if password ≠ "wind" then .error .forbidden
  else match markDeletedFirst id d.files with
    | none => .error .notFound
    | some files2 => .ok (updateStats { d with files := files2 })

/-- Request body of `POST /api/tags`. -/
structure TagBody where
  name : String
  color : Option String := none
  description : Option String := none

/-- Request body of `POST /api/models` and `POST /api/categories`. -/
structure NamedBody where
  name : String
  description : Option String := none

/-- The `newTag` object literal of `POST /api/tags`: id is
`"tag_" + Date.now()`, defaulted color and description, `usageCount: 0`. -/
def mkTag (now : Nat) (body : TagBody) : PresetTag :=
  { id := "tag_" ++ Nat.repr now
    name := body.name
    color := body.color.getD "#3498db"
    description := body.description.getD ""
    usageCount := 0 }

/-- The `newModel` object literal of `POST /api/models`. -/
def mkModel (now : Nat) (body : NamedBody) : PresetModel :=
  { id := "model_" ++ Nat.repr now
    name := body.name
    description := body.description.getD ""
    usageCount := 0 }

/-- The `newCategory` object literal of `POST /api/categories`. -/
def mkCategory (now : Nat) (body : NamedBody) : PresetCategory :=
  { id := "category_" ++ Nat.repr now
    name := body.name
    description := body.description.getD ""
    usageCount := 0 }

/-- `POST /api/tags` (lines 288–315): only a falsy (empty) name is
rejected; the new tag is appended, then stats are recomputed. No
duplicate-name check of any kind. -/
def addTag (now : Nat) (body : TagBody) (d : AppData) : Except ApiError (PresetTag × AppData) :=
  if body.name = "" then .error .badRequest
  else .ok (mkTag now body, updateStats { d with preset_tags := d.preset_tags ++ [mkTag now body] })

/-- `POST /api/models` (lines 324–350): same shape as `addTag`. -/
def addModel (now : Nat) (body : NamedBody) (d : AppData) : Except ApiError (PresetModel × AppData) :=
  if body.name = "" then .error .badRequest
  else .ok (mkModel now body, updateStats { d with preset_models := d.preset_models ++ [mkModel now body] })

/-- `POST /api/categories` (lines 393–419): same shape as `addTag`. -/
def addCategory (now : Nat) (body : NamedBody) (d : AppData) : Except ApiError (PresetCategory × AppData) :=
  if body.name = "" then .error .badRequest
  else .ok (mkCategory now body, updateStats { d with categories := d.categories ++ [mkCategory now body] })

/-- The `POST /api/upload` route after multer stored the blob (lines
124–162): push the assembled record (status `active`) and recompute stats.
The record, including its random id, is taken as input. -/
def uploadFile (f : JFile) (d : AppData) : AppData :=
  updateStats { d with files := d.files ++ [f] }

end Server

namespace DataManager

/-- `splice(index, 1)` on the first tag whose id matches. -/
def removeFirstTag (tagId : String) : List PresetTag → List PresetTag
  | [] => []
  | t :: ts => if t.id = tagId then ts else t :: removeFirstTag tagId ts

/-- `DataManager.deleteTag` from
`src/cursor-sonic/static-pages/js/data-manager.js` lines 376–395: find the
tag by id and splice it out, then `saveData` (which reruns `updateStats`).
There is no usage check of any kind. -/
def deleteTag (tagId : String) (d : AppData) : Except ApiError (PresetTag × AppData) :=
  match d.preset_tags.find? (fun t => t.id = tagId) with
  | none => .error .notFound
  | some t =>
    .ok (t, Server.updateStats { d with preset_tags := removeFirstTag tagId d.preset_tags })

/-- `splice(index, 1)` on the first category whose id matches. -/
def removeFirstCategory (catId : String) : List PresetCategory → List PresetCategory
  | [] => []
  | c :: cs => if c.id = catId then cs else c :: removeFirstCategory catId cs

/-- `DataManager.deleteCategory` (lines 570–597): resolve the category by
id, count the files (all statuses) whose free-text `category` equals its
name, refuse when that count is positive, otherwise splice it out. -/
def deleteCategory (catId : String) (d : AppData) : Except ApiError (PresetCategory × AppData) :=
  match d.categories.find? (fun c => c.id = catId) with
  | none => .error .notFound
  | some c =>
    let usingFiles := d.files.filter (fun f => f.category = c.name)
    if 0 < usingFiles.length then .error (.inUse usingFiles.length)
    else .ok (c, Server.updateStats { d with categories := removeFirstCategory catId d.categories })

end DataManager

namespace Components

/-- `deleteTag` from `src/docs/static-pages/js/components.js` lines
1104–1131: count the files — of every status, deleted included — whose
`tags` contain the id; refuse with that count when positive; otherwise
splice the tag out of `preset_tags` and save. -/
def deleteTag (tagId : String) (d : AppData) : Except ApiError AppData :=
  let usingFiles := d.files.filter (fun f => tagId ∈ f.tags)
  if 0 < usingFiles.length then .error (.inUse usingFiles.length)
  else match d.preset_tags.find? (fun t => t.id = tagId) with
    | none => .error .notFound
    | some _ =>
      .ok (Server.updateStats { d with preset_tags := DataManager.removeFirstTag tagId d.preset_tags })

/-- `splice(index, 1)` on the first model whose id matches. -/
def removeFirstModel (modelId : String) : List PresetModel → List PresetModel
  | [] => []
  | m :: ms => if m.id = modelId then ms else m :: removeFirstModel modelId ms

/-- `deleteModel` from `components.js` lines 1231–1258: the same guard
keyed on `file.model === modelId`, again over files of every status. -/
def deleteModel (modelId : String) (d : AppData) : Except ApiError AppData :=
  let usingFiles := d.files.filter (fun f => f.model = modelId)
  if 0 < usingFiles.length then .error (.inUse usingFiles.length)
  else match d.preset_models.find? (fun m => m.id = modelId) with
    | none => .error .notFound
    | some _ =>
      .ok (Server.updateStats { d with preset_models := removeFirstModel modelId d.preset_models })

end Components

namespace DatabaseManager

/-- An `html_files` record of the trae-trash variant
(`src/trae-trash/utils/database-manager.js`): tags are bare name strings,
there is no separate tag entity collection. `updated_at` keeps the tick at
which the record was last rewritten. -/
structure TFile where
  id : String
  original_name : String
  scene : String
  prompt : String
  models : List String
  tags : List String
  updated_at : Nat
deriving Repr, DecidableEq

/-- `file.tags[file.tags.indexOf(old)] = new`: replace the first
occurrence only. -/
def replaceFirst (old new : String) : List String → List String
  | [] => []
  | x :: xs => if x = old then new :: xs else x :: replaceFirst old new xs

/-- The body of the `forEach` in `editTag`: a file whose tags include the
old name gets the first occurrence replaced and `updated_at` refreshed;
any other file is untouched. -/
def editTagFile (now : Nat) (oldName newName : String) (f : TFile) : TFile :=
  if oldName ∈ f.tags then
    { f with tags := replaceFirst oldName newName f.tags, updated_at := now }
  else f

/-- `DatabaseManager.editTag` (lines 424–463; `handleEditTagRequest` in
`src/trae-trash/server.js` lines 369–456 is the same rewrite): reject
empty or equal names, rewrite every file carrying the old tag name, and
fail (`updatedCount === 0`) when no file carried it. -/
def editTag (now : Nat) (oldName newName : String) (files : List TFile) :
    Except ApiError (List TFile) :=
  if oldName = "" ∨ newName = "" then .error .badRequest
  else if oldName = newName then .error .badRequest
  else if ∀ f ∈ files, oldName ∉ f.tags then .error .notFound
  else .ok (files.map (editTagFile now oldName newName))

/-- Replace the record at the first slot holding the same id
(`html_files[existingIndex] = record`). -/
def replaceById (record : TFile) : List TFile → List TFile
  | [] => []
  | f :: fs => if f.id = record.id then record :: fs else f :: replaceById record fs

/-- `DatabaseManager.addHTMLFile` (lines 123–175) with persistence made
explicit: `saveOk` is whether `saveData`'s `fs.writeFileSync` succeeds.
After validating the required string fields the record is inserted into
(or replaces its id's slot in) the in-memory `html_files`, and only then
is the document saved; the function returns `saveData`'s boolean together
with the in-memory list as it stands at return time. -/
def addHTMLFile (saveOk : Bool) (record : TFile) (files : List TFile) :
    Bool × List TFile :=
  if record.original_name = "" ∨ record.scene = "" ∨ record.prompt = "" then
    (false, files)
  else
    let files2 :=
      if files.any (fun f => f.id = record.id) then replaceById record files
      else files ++ [record]
    (saveOk, files2)

end DatabaseManager

/-! Decimal representation helpers, used to reason about the
`"tag_" + Date.now()` id scheme (`Nat.repr` is core's fuel-based
`toDigitsCore`; `decChars` is the same digit string defined by plain
recursion, so that its value can be read back). -/

/-- Numeric value of a decimal digit character. -/
def charVal (c : Char) : Nat := c.toNat - 48

/-- The decimal digit characters of `n`, most significant first. -/
def decChars (n : Nat) : List Char :=
  if h : n < 10 then [Nat.digitChar n]
  else
    have : n / 10 < n := Nat.div_lt_self (by omega) (by omega)
    decChars (n / 10) ++ [Nat.digitChar (n % 10)]

/-- Read a digit string back as a number. -/
def valOf (l : List Char) : Nat := l.foldl (fun a c => a * 10 + charVal c) 0

/-! Concrete states used by the counterexamples and witnesses. -/

/-- All-zero settings block. -/
def emptySettings : Settings := ⟨0, 0, 0, 0⟩

/-- A preset tag named UI with id `tag_1`, as `addTag` would create it. -/
def sampleTag : PresetTag :=
  { id := "tag_1", name := "UI", color := "#3498db", description := "", usageCount := 0 }

/-- An active file referencing `tag_1`. -/
def fileUI : JFile :=
  { id := "f1", originalName := "a.html", title := "Button component for login"
    description := "", category := "", background := "", prompt := ""
    model := "", tags := ["tag_1"], status := "active", accessCount := 0 }

/-- Catalog with one active file that references the one preset tag. -/
def dGuard : AppData :=
  { files := [fileUI], preset_tags := [sampleTag], preset_models := []
    categories := [], settings := emptySettings }

/-- Catalog with the preset tag but no files yet. -/
def dTag0 : AppData :=
  { files := [], preset_tags := [sampleTag], preset_models := []
    categories := [], settings := emptySettings }

/-- An active file whose searchable text contains `axb`. -/
def fileAxb : JFile :=
  { id := "f2", originalName := "", title := "axb", description := ""
    category := "", background := "", prompt := "", model := ""
    tags := [], status := "active", accessCount := 0 }

/-- A deleted file carrying the free-text category `x`. -/
def fileDeletedX : JFile :=
  { id := "f3", originalName := "", title := "", description := ""
    category := "x", background := "", prompt := "", model := ""
    tags := [], status := "deleted", accessCount := 0 }

/-- Catalog holding only the deleted file, with an empty category list. -/
def dStats : AppData :=
  { files := [fileDeletedX], preset_tags := [], preset_models := []
    categories := [], settings := emptySettings }

/-- A catalog like `dGuard` but with a consistent `totalFiles` counter,
as it stands after a committed mutation. -/
def dSoft : AppData :=
  { files := [fileUI], preset_tags := [sampleTag], preset_models := []
    categories := [], settings := ⟨1, 1, 0, 0⟩ }

/-- A trae-trash record carrying tag `A`. -/
def tRecA : DatabaseManager.TFile :=
  { id := "t1", original_name := "a.html", scene := "s", prompt := "p"
    models := [], tags := ["A"], updated_at := 0 }

/-- A trae-trash record carrying tag `B`. -/
def tRecB : DatabaseManager.TFile :=
  { id := "t2", original_name := "b.html", scene := "s", prompt := "p"
    models := [], tags := ["B"], updated_at := 0 }

/-- A valid trae-trash record for the persistence-failure scenario. -/
def tRecNew : DatabaseManager.TFile :=
  { id := "x1", original_name := "c.html", scene := "s", prompt := "p"
    models := ["gpt"], tags := [], updated_at := 0 }

/-! ### Helper lemmas about the category set built by `updateStats` -/

theorem jsSetAdd_toFinset (s : List String) (x : String) :
    (Server.jsSetAdd s x).toFinset = insert x s.toFinset := by
  unfold Server.jsSetAdd
  split
  · exact (Finset.insert_eq_self.mpr (List.mem_toFinset.mpr (by assumption))).symm
  · simp [List.toFinset_append, Finset.insert_eq, Finset.union_comm]

theorem jsSetAdd_nodup (s : List String) (x : String) (h : s.Nodup) :
    (Server.jsSetAdd s x).Nodup := by
  unfold Server.jsSetAdd
  split
  · exact h
  · simp [List.nodup_append, h, by assumption]

theorem collectCategories_go (files : List JFile) (acc : List String) (h : acc.Nodup) :
    (files.foldl (fun acc f => if f.category ≠ "" then Server.jsSetAdd acc f.category else acc) acc).Nodup ∧
    (files.foldl (fun acc f => if f.category ≠ "" then Server.jsSetAdd acc f.category else acc) acc).toFinset =
      acc.toFinset ∪
        (files.filterMap (fun f => if f.category = "" then none else some f.category)).toFinset := by
  induction files generalizing acc with
  | nil => exact ⟨h, by simp⟩
  | cons f fs ih =>
    by_cases hc : f.category = ""
    · have H := ih acc h
      rw [List.foldl_cons, if_neg (not_not_intro hc)]
      refine ⟨H.1, ?_⟩
      have hnone : (fun g : JFile => if g.category = "" then none else some g.category) f
          = none := by simp [hc]
      simp only [List.filterMap_cons, hnone]
      exact H.2
    · have hstep : (Server.jsSetAdd acc f.category).Nodup := jsSetAdd_nodup acc f.category h
      have H := ih (Server.jsSetAdd acc f.category) hstep
      rw [List.foldl_cons, if_pos hc]
      refine ⟨H.1, ?_⟩
      have hsome : (fun g : JFile => if g.category = "" then none else some g.category) f
          = some f.category := by simp [hc]
      simp only [List.filterMap_cons, hsome, List.toFinset_cons]
      rw [H.2, jsSetAdd_toFinset, Finset.insert_union, Finset.union_insert]

theorem collectCategories_length (files : List JFile) :
    (Server.collectCategories files).length =
      (files.filterMap (fun f => if f.category = "" then none else some f.category)).toFinset.card := by
  have h := collectCategories_go files [] (by simp)
  unfold Server.collectCategories
  rw [← List.toFinset_card_of_nodup h.1, h.2]
  simp

/-! ### C3 — stored usageCount versus active reference counts -/

/-- C3 (amended): no committed mutation recomputes the stored
`usageCount`. `updateStats` rewrites only the `settings` block — it leaves
the files and all three preset collections (and hence every stored
`usageCount`) untouched — and adding a file leaves `preset_tags`
untouched, so the stored counter does not track active references. -/
theorem usageCount_never_recomputed (d : AppData) (f : JFile) :
    (Server.updateStats d).preset_tags = d.preset_tags ∧
    (Server.updateStats d).preset_models = d.preset_models ∧
    (Server.updateStats d).categories = d.categories ∧
    (Server.updateStats d).files = d.files ∧
    (Server.uploadFile f d).preset_tags = d.preset_tags := by
  refine ⟨rfl, rfl, rfl, rfl, ?_⟩
  simp [Server.uploadFile, Server.updateStats]

/-- C3 (counterexample): after the committed mutation that uploads an
active file referencing `tag_1`, the tag's stored `usageCount` is still 0
while one active file references it, so the claimed invariant fails. -/
theorem usageCount_invariant_cex :
    ((Server.uploadFile fileUI dTag0).preset_tags.map (fun t => t.usageCount)) = [0] ∧
    ((Server.uploadFile fileUI dTag0).files.filter
      (fun f => f.status = "active" ∧ "tag_1" ∈ f.tags)).length = 1 := by
  decide

/-! ### C5 — wildcard matching examples -/

/-- C5 (counterexample): the pattern `fo?` compiles to the regex `fo.`
and `regex.test` is an unanchored substring search, so it does match the
searchable text `fooo` (the claim says it matches neither `fo` nor
`fooo`). -/
theorem wildcard_fooo_cex : keywordMatch "fo?".data "fooo".data = true := by decide

/-- C5 (amended): `fo?` matches `foo` and `for` and not `fo`, but — the
match being an unanchored substring search — it also matches `fooo`;
`f*r` matches `for`, `falter` and `fr`. -/
theorem wildcard_semantics_amended :
    keywordMatch "fo?".data "foo".data = true ∧
    keywordMatch "fo?".data "for".data = true ∧
    keywordMatch "fo?".data "fo".data = false ∧
    keywordMatch "fo?".data "fooo".data = true ∧
    keywordMatch "f*r".data "for".data = true ∧
    keywordMatch "f*r".data "falter".data = true ∧
    keywordMatch "f*r".data "fr".data = true := by
  decide

/-! ### C6 — what updateStats actually computes -/

/-- C6 (counterexample): on a catalog whose only file is deleted and
carries free-text category `x`, with an empty category collection,
`updateStats` reports `totalCategories = 1` while the number of category
catalog entries is 0 — the count is of distinct free-text values and the
deleted file is not excluded. -/
theorem updateStats_totalCategories_cex :
    (Server.updateStats dStats).settings.totalCategories = 1 ∧
    dStats.categories.length = 0 := by
  decide

/-- C6 (amended): after every mutation `updateStats` recomputes
`totalFiles` as the number of non-deleted files and `totalTags` /
`totalModels` as the sizes of the preset collections, but
`totalCategories` as the number of distinct non-empty free-text
`category` values over all files, deleted ones included — the category
catalog is not consulted. -/
theorem updateStats_amended (d : AppData) :
    (Server.updateStats d).settings.totalFiles =
      (d.files.filter (fun f => f.status ≠ "deleted")).length ∧
    (Server.updateStats d).settings.totalTags = d.preset_tags.length ∧
    (Server.updateStats d).settings.totalModels = d.preset_models.length ∧
    (Server.updateStats d).settings.totalCategories =
      (d.files.filterMap
        (fun f => if f.category = "" then none else some f.category)).toFinset.card := by
  exact ⟨rfl, rfl, rfl, collectCategories_length d.files⟩

/-! ### C4 — text filter semantics -/

/-- C4 (counterexample): regex metacharacters are not escaped when a
keyword is compiled, so the keyword `a.b` (regex `a.b`, dot = any
character) returns a file whose searchable text contains `axb`; under the
claim's escaped-pattern semantics that keyword does not match. -/
theorem search_escaping_cex :
    Server.getFiles { search := some "a.b" } [fileAxb] = [fileAxb] ∧
    specKeywordMatch "a.b".data (searchableText fileAxb) = false := by
  decide

/-- C4 (amended): the text is trimmed, lower-cased and split on
whitespace into non-empty keywords; each keyword is passed to the regex
engine unescaped after mapping `*` to any run and `?` to any single
character, so a literal `.` also matches any single character instead of
being escaped. For search strings whose characters avoid the remaining
JS regex metacharacters (`plainRegexChar`) — the fragment on which the
compiled pattern is exactly literals, any-one and any-run, and
`new RegExp` cannot throw — a file is returned iff its status is not
deleted and every keyword matches, as an unanchored substring search,
the lower-cased space-joined concatenation of title, description,
originalName, background, prompt and free-text category — AND over all
keywords, in any order. -/
theorem getFiles_text_filter (s : String) (files : List JFile) (f : JFile)
    (hplain : ∀ c ∈ s.data, plainRegexChar c = true)
    (hs : trimChars s.data ≠ []) :
    f ∈ Server.getFiles { search := some s } files ↔
      f ∈ files ∧ f.status ≠ "deleted" ∧
        ∀ kw ∈ splitKeywords (trimChars s.data),
          keywordMatch kw (searchableText f) = true := by
  simp [Server.getFiles, hs, fileMatchesSearch, List.mem_filter, List.all_eq_true, and_assoc]
  tauto

/-- Witness for the text-filter theorem: the spec's own example file is
returned for the query `button log`, whose two keywords occur in its
searchable text in the opposite order. -/
theorem getFiles_text_filter_witness :
    fileUI ∈ Server.getFiles { search := some "button log" } [fileUI] :=
  (getFiles_text_filter "button log" [fileUI] fileUI (by decide) (by decide)).mpr
    ⟨by decide, by decide, by decide⟩

/-! ### C7 — creation performs no duplicate-name check -/

/-- C7 (counterexample): with an active tag named `UI` already present,
`POST /api/tags` for the same name succeeds and appends a second tag
named `UI` instead of failing with a duplicate-name error. -/
theorem addTag_duplicate_cex :
    sampleTag ∈ dTag0.preset_tags ∧ sampleTag.name = "UI" ∧
    Server.addTag 5 { name := "UI" } dTag0 =
      .ok ({ id := "tag_5", name := "UI", color := "#3498db", description := ""
             usageCount := 0 },
        { files := []
          preset_tags := [sampleTag,
            { id := "tag_5", name := "UI", color := "#3498db", description := ""
              usageCount := 0 }]
          preset_models := [], categories := [], settings := ⟨0, 2, 0, 0⟩ }) := by
  decide

/-- C7 (amended): `createTag`/`createModel`/`createCategory` fails only
when the requested name is empty (falsy); otherwise it succeeds and
appends the new entity whatever names already exist — there is no
duplicate-name check, so a colliding name is accepted. -/
theorem create_ignores_duplicates (now : Nat) (tb : Server.TagBody)
    (nb : Server.NamedBody) (d : AppData) (ht : tb.name ≠ "") (hn : nb.name ≠ "") :
    Server.addTag now tb d =
      .ok (Server.mkTag now tb,
        Server.updateStats { d with preset_tags := d.preset_tags ++ [Server.mkTag now tb] }) ∧
    Server.addModel now nb d =
      .ok (Server.mkModel now nb,
        Server.updateStats { d with preset_models := d.preset_models ++ [Server.mkModel now nb] }) ∧
    Server.addCategory now nb d =
      .ok (Server.mkCategory now nb,
        Server.updateStats { d with categories := d.categories ++ [Server.mkCategory now nb] }) := by
  refine ⟨?_, ?_, ?_⟩ <;>
    simp [Server.addTag, Server.addModel, Server.addCategory, ht, hn]

/-- Witness for `create_ignores_duplicates` at a state already holding a
tag with the same name. -/
theorem create_ignores_duplicates_witness :
    Server.addTag 5 { name := "UI" } dTag0 =
      .ok (Server.mkTag 5 { name := "UI" },
        Server.updateStats
          { dTag0 with preset_tags := dTag0.preset_tags ++ [Server.mkTag 5 { name := "UI" }] }) ∧
    Server.addModel 5 { name := "UI" } dTag0 =
      .ok (Server.mkModel 5 { name := "UI" },
        Server.updateStats
          { dTag0 with preset_models := dTag0.preset_models ++ [Server.mkModel 5 { name := "UI" }] }) ∧
    Server.addCategory 5 { name := "UI" } dTag0 =
      .ok (Server.mkCategory 5 { name := "UI" },
        Server.updateStats
          { dTag0 with categories := dTag0.categories ++ [Server.mkCategory 5 { name := "UI" }] }) :=
  create_ignores_duplicates 5 { name := "UI" } { name := "UI" } dTag0 (by decide) (by decide)

/-! ### C9 — persistence failure is surfaced but not rolled back -/

/-- C9 (counterexample): when `saveData` fails, `addHTMLFile` returns
`false` but the in-memory list keeps the freshly inserted record instead
of rolling back to the pre-mutation snapshot (the empty list). -/
theorem addHTMLFile_rollback_cex :
    DatabaseManager.addHTMLFile false tRecNew [] = (false, [tRecNew]) ∧
    ([tRecNew] : List DatabaseManager.TFile) ≠ [] := by
  decide

/-- C9 (amended): a persistence failure is surfaced — the operation
returns `false` — but the in-memory catalog retains the mutation: for a
valid record with a fresh id the list at return time is the pre-mutation
list with the record appended, which differs from the snapshot. There is
no automatic rollback. -/
theorem addHTMLFile_no_rollback (record : DatabaseManager.TFile)
    (files : List DatabaseManager.TFile)
    (h1 : record.original_name ≠ "") (h2 : record.scene ≠ "") (h3 : record.prompt ≠ "")
    (hid : ∀ f ∈ files, f.id ≠ record.id) :
    DatabaseManager.addHTMLFile false record files = (false, files ++ [record]) ∧
    files ++ [record] ≠ files := by
  constructor
  · unfold DatabaseManager.addHTMLFile
    rw [if_neg (by simp [h1, h2, h3])]
    have hany : files.any (fun f => f.id = record.id) = false := by
      simp only [List.any_eq_false, decide_eq_true_eq]
      exact hid
    simp [hany]
  · intro hcontra
    have := congrArg List.length hcontra
    simp at this

/-- Witness for `addHTMLFile_no_rollback` on a one-record catalog. -/
theorem addHTMLFile_no_rollback_witness :
    DatabaseManager.addHTMLFile false tRecNew [tRecA] = (false, [tRecA] ++ [tRecNew]) ∧
    [tRecA] ++ [tRecNew] ≠ [tRecA] :=
  addHTMLFile_no_rollback tRecNew [tRecA] (by decide) (by decide) (by decide) (by decide)

/-! ### C2 — the delete guard is not what the claim says -/

/-- C2 (counterexample): in the cursor-sonic static variant, deleting a
tag referenced by one active file succeeds and removes the tag — there is
no usage check at all, so the claimed uniform `EntityInUseError` guard
fails. -/
theorem deleteTag_unguarded_cex :
    (dGuard.files.filter (fun f => "tag_1" ∈ f.tags ∧ f.status = "active")).length = 1 ∧
    DataManager.deleteTag "tag_1" dGuard =
      .ok (sampleTag,
        { files := [fileUI], preset_tags := [], preset_models := []
          categories := [], settings := ⟨1, 0, 0, 0⟩ }) := by
  decide

/-- C2 (amended): the guard is inconsistent across the variants. The
docs-variant `deleteTag` fails with an in-use error whenever at least one
file of any status (deleted files included, not only active ones)
references the tag, carrying that count and leaving no state to commit;
the cursor-sonic static `deleteTag` performs no usage check and succeeds
whenever the tag id exists. -/
theorem delete_guard_amended (d : AppData) (tagId : String) (t : PresetTag)
    (hmem : t ∈ d.preset_tags) (hid : t.id = tagId) :
    (0 < (d.files.filter (fun f => tagId ∈ f.tags)).length →
      Components.deleteTag tagId d =
        .error (.inUse (d.files.filter (fun f => tagId ∈ f.tags)).length)) ∧
    (DataManager.deleteTag tagId d).isOk = true := by
  constructor
  · intro h
    simp only [Components.deleteTag]
    rw [if_pos h]
  · have hsome : (d.preset_tags.find? (fun t2 => t2.id = tagId)).isSome := by
      rw [List.find?_isSome]
      exact ⟨t, hmem, by simp [hid]⟩
    rcases Option.isSome_iff_exists.mp hsome with ⟨t2, ht2⟩
    simp [DataManager.deleteTag, ht2, Except.isOk, Except.toBool]

/-- Witness for `delete_guard_amended` on the catalog whose single active
file references the single tag: the docs variant refuses with count 1,
the cursor-sonic static variant deletes anyway. -/
theorem delete_guard_witness :
    Components.deleteTag "tag_1" dGuard = .error (.inUse 1) ∧
    (DataManager.deleteTag "tag_1" dGuard).isOk = true := by
  have h := delete_guard_amended dGuard "tag_1" sampleTag (by decide) rfl
  have hlen : (dGuard.files.filter (fun f => "tag_1" ∈ f.tags)).length = 1 := by decide
  refine ⟨?_, h.2⟩
  have := h.1 (by rw [hlen]; decide)
  rwa [hlen] at this

/-! ### C1 — rename is a per-file string rewrite -/

theorem replaceFirst_of_not_mem (x y : String) (l : List String) (h : x ∉ l) :
    DatabaseManager.replaceFirst x y l = l := by
  induction l with
  | nil => rfl
  | cons a as ih =>
    simp only [List.mem_cons, not_or] at h
    rw [DatabaseManager.replaceFirst, if_neg (fun he => h.1 he.symm), ih h.2]

theorem mem_replaceFirst (x y : String) (l : List String) (h : x ∈ l) :
    y ∈ DatabaseManager.replaceFirst x y l := by
  induction l with
  | nil => cases h
  | cons a as ih =>
    rw [DatabaseManager.replaceFirst]
    by_cases ha : a = x
    · rw [if_pos ha]
      exact List.mem_cons_self y _
    · rw [if_neg ha]
      rcases List.mem_cons.mp h with h1 | h2
      · exact absurd h1.symm ha
      · exact List.mem_cons_of_mem a (ih h2)

theorem replaceFirst_roundtrip (A B : String) (l : List String) (hB : B ∉ l) :
    DatabaseManager.replaceFirst B A (DatabaseManager.replaceFirst A B l) = l := by
  induction l with
  | nil => rfl
  | cons a as ih =>
    simp only [List.mem_cons, not_or] at hB
    by_cases ha : a = A
    · rw [DatabaseManager.replaceFirst, if_pos ha]
      rw [DatabaseManager.replaceFirst, if_pos rfl, ha]
    · rw [DatabaseManager.replaceFirst, if_neg ha]
      rw [DatabaseManager.replaceFirst, if_neg (fun he => hB.1 he.symm), ih hB.2]

theorem editTagFile_roundtrip (n1 n2 : Nat) (A B : String)
    (f : DatabaseManager.TFile) (hB : B ∉ f.tags) :
    (DatabaseManager.editTagFile n2 B A (DatabaseManager.editTagFile n1 A B f)).tags
        = f.tags ∧
    (DatabaseManager.editTagFile n2 B A (DatabaseManager.editTagFile n1 A B f)).id
        = f.id := by
  by_cases hA : A ∈ f.tags
  · simp [DatabaseManager.editTagFile, hA, mem_replaceFirst A B f.tags hA,
      replaceFirst_roundtrip A B f.tags hB]
  · simp [DatabaseManager.editTagFile, hA, hB]

/-- C1 (counterexample): `editTag` rewrites File records — renaming tag
`A` to `B` rewrites the file carrying `A` — and the round trip
`A → B → A` does not leave every file's reference set unchanged: a file
that already carried tag `B` before the round trip ends up carrying `A`
instead. -/
theorem editTag_rewrites_files_cex :
    DatabaseManager.editTag 1 "A" "B" [tRecA, tRecB] =
      .ok [{ tRecA with tags := ["B"], updated_at := 1 }, tRecB] ∧
    ({ tRecA with tags := ["B"], updated_at := 1 } : DatabaseManager.TFile) ≠ tRecA ∧
    DatabaseManager.editTag 2 "B" "A"
        [{ tRecA with tags := ["B"], updated_at := 1 }, tRecB] =
      .ok [{ tRecA with tags := ["A"], updated_at := 2 },
           { tRecB with tags := ["A"], updated_at := 2 }] ∧
    ({ tRecB with tags := ["A"], updated_at := 2 } : DatabaseManager.TFile).tags
      ≠ tRecB.tags := by
  decide

/-- C1 (amended): rename is implemented as a name-string rewrite over the
file records themselves (references are name-based, not id-based): every
file whose tags contain the old name has its first occurrence replaced
and its `updated_at` refreshed, and the call fails when no file carries
the old name. Provided no file already carried the new name `B`, renaming
`A → B` and then `B → A` succeeds and restores every file's tag list and
id (only `updated_at` keeps the rewrite's trace). -/
theorem editTag_roundtrip (n1 n2 : Nat) (A B : String)
    (files : List DatabaseManager.TFile)
    (hA0 : A ≠ "") (hB0 : B ≠ "") (hAB : A ≠ B)
    (hBnot : ∀ f ∈ files, B ∉ f.tags)
    (hAin : ∃ f ∈ files, A ∈ f.tags) :
    DatabaseManager.editTag n1 A B files =
      .ok (files.map (DatabaseManager.editTagFile n1 A B)) ∧
    DatabaseManager.editTag n2 B A (files.map (DatabaseManager.editTagFile n1 A B)) =
      .ok ((files.map (DatabaseManager.editTagFile n1 A B)).map
        (DatabaseManager.editTagFile n2 B A)) ∧
    ((files.map (DatabaseManager.editTagFile n1 A B)).map
        (DatabaseManager.editTagFile n2 B A)).map DatabaseManager.TFile.tags =
      files.map DatabaseManager.TFile.tags ∧
    ((files.map (DatabaseManager.editTagFile n1 A B)).map
        (DatabaseManager.editTagFile n2 B A)).map DatabaseManager.TFile.id =
      files.map DatabaseManager.TFile.id := by
  obtain ⟨f0, hf0, hAf0⟩ := hAin
  refine ⟨?_, ?_, ?_, ?_⟩
  · rw [DatabaseManager.editTag, if_neg (by simp [hA0, hB0]), if_neg hAB,
      if_neg (fun hall => (hall f0 hf0) hAf0)]
  · have hmem1 : DatabaseManager.editTagFile n1 A B f0 ∈
        files.map (DatabaseManager.editTagFile n1 A B) :=
      List.mem_map_of_mem _ hf0
    have hBin : B ∈ (DatabaseManager.editTagFile n1 A B f0).tags := by
      simp [DatabaseManager.editTagFile, hAf0]
      exact mem_replaceFirst A B f0.tags hAf0
    rw [DatabaseManager.editTag, if_neg (by simp [hA0, hB0]),
      if_neg (fun h => hAB h.symm), if_neg (fun hall => (hall _ hmem1) hBin)]
  · rw [List.map_map, List.map_map]
    refine List.map_congr_left (fun f hf => ?_)
    exact (editTagFile_roundtrip n1 n2 A B f (hBnot f hf)).1
  · rw [List.map_map, List.map_map]
    refine List.map_congr_left (fun f hf => ?_)
    exact (editTagFile_roundtrip n1 n2 A B f (hBnot f hf)).2

/-- Witness for `editTag_roundtrip` on a one-file catalog carrying `A`. -/
theorem editTag_roundtrip_witness :
    DatabaseManager.editTag 1 "A" "B" [tRecA] =
      .ok ([tRecA].map (DatabaseManager.editTagFile 1 "A" "B")) ∧
    DatabaseManager.editTag 2 "B" "A"
        ([tRecA].map (DatabaseManager.editTagFile 1 "A" "B")) =
      .ok (([tRecA].map (DatabaseManager.editTagFile 1 "A" "B")).map
        (DatabaseManager.editTagFile 2 "B" "A")) ∧
    (([tRecA].map (DatabaseManager.editTagFile 1 "A" "B")).map
        (DatabaseManager.editTagFile 2 "B" "A")).map DatabaseManager.TFile.tags =
      [tRecA].map DatabaseManager.TFile.tags ∧
    (([tRecA].map (DatabaseManager.editTagFile 1 "A" "B")).map
        (DatabaseManager.editTagFile 2 "B" "A")).map DatabaseManager.TFile.id =
      [tRecA].map DatabaseManager.TFile.id :=
  editTag_roundtrip 1 2 "A" "B" [tRecA] (by decide) (by decide) (by decide)
    (by decide) ⟨tRecA, by decide, by decide⟩

/-! ### C8 — soft delete -/

theorem markDeletedFirst_append (id : String) (l1 l2 : List JFile) (f : JFile)
    (h1 : ∀ g ∈ l1, g.id ≠ id) (hf : f.id = id) :
    Server.markDeletedFirst id (l1 ++ f :: l2) =
      some (l1 ++ { f with status := "deleted" } :: l2) := by
  induction l1 with
  | nil => simp [Server.markDeletedFirst, hf]
  | cons g gs ih =>
    have hg : g.id ≠ id := h1 g (List.mem_cons_self g gs)
    simp only [List.cons_append, Server.markDeletedFirst, List.append_eq]
    rw [if_neg hg, ih (fun g2 hg2 => h1 g2 (List.mem_cons_of_mem g hg2))]
    rfl

/-- C8: `softDeleteFile` flips the status of the targeted file to
`deleted` and recomputes stats. Afterwards `getFiles({})` no longer
returns any file with that id, `totalFiles` has decreased by exactly one
(assuming the stored counter was consistent, as it is after any committed
mutation), `getFile(id)` fails with the not-found error, and deleting the
same id again is a no-op success returning the same catalog. -/
theorem softDelete_behaviour (d : AppData) (l1 l2 : List JFile) (f : JFile)
    (hdecomp : d.files = l1 ++ f :: l2)
    (h1 : ∀ g ∈ l1, g.id ≠ f.id) (h2 : ∀ g ∈ l2, g.id ≠ f.id)
    (hact : f.status = "active")
    (hstats : d.settings.totalFiles =
      (d.files.filter (fun g => g.status ≠ "deleted")).length) :
    Server.deleteFile "wind" f.id d =
      .ok (Server.updateStats
        { d with files := l1 ++ { f with status := "deleted" } :: l2 }) ∧
    (∀ g ∈ Server.getFiles {} (l1 ++ { f with status := "deleted" } :: l2),
      g.id ≠ f.id) ∧
    (Server.updateStats
        { d with files := l1 ++ { f with status := "deleted" } :: l2 }).settings.totalFiles
      + 1 = d.settings.totalFiles ∧
    Server.getFile f.id (Server.updateStats
      { d with files := l1 ++ { f with status := "deleted" } :: l2 }) =
        .error .notFound ∧
    Server.deleteFile "wind" f.id (Server.updateStats
        { d with files := l1 ++ { f with status := "deleted" } :: l2 }) =
      .ok (Server.updateStats
        { d with files := l1 ++ { f with status := "deleted" } :: l2 }) := by
  have hmark := markDeletedFirst_append f.id l1 l2 f h1 rfl
  refine ⟨?_, ?_, ?_, ?_, ?_⟩
  · rw [Server.deleteFile, if_neg (by simp), hdecomp, hmark]
  · intro g hg
    simp only [Server.getFiles, List.mem_filter, List.mem_append, List.mem_cons] at hg
    rcases hg.1 with hgl1 | hgf | hgl2
    · exact h1 g hgl1
    · exfalso
      rw [hgf] at hg
      simp at hg
    · exact h2 g hgl2
  · rw [hdecomp] at hstats
    simp only [Server.updateStats, hstats, List.filter_append, List.filter_cons,
      List.length_append]
    simp [hact]
    omega
  · have hnone : (l1 ++ { f with status := "deleted" } :: l2).find?
        (fun g => g.id = f.id ∧ g.status ≠ "deleted") = none := by
      rw [List.find?_eq_none]
      intro g hg
      simp only [List.mem_append, List.mem_cons] at hg
      simp only [decide_eq_true_eq]
      rcases hg with hgl1 | hgf | hgl2
      · exact fun hc => h1 g hgl1 hc.1
      · rw [hgf]
        exact fun hc => hc.2 rfl
      · exact fun hc => h2 g hgl2 hc.1
    unfold Server.getFile
    rw [show (Server.updateStats
        { d with files := l1 ++ { f with status := "deleted" } :: l2 }).files =
      l1 ++ { f with status := "deleted" } :: l2 from rfl]
    rw [hnone]
  · rw [Server.deleteFile, if_neg (by simp)]
    have hmark2 := markDeletedFirst_append f.id l1 l2 { f with status := "deleted" }
      h1 rfl
    simp only [Server.updateStats] at hmark2 ⊢
    rw [hmark2]

/-- Witness for `softDelete_behaviour`: deleting the one active file of
`dSoft`. -/
theorem softDelete_behaviour_witness :
    Server.deleteFile "wind" fileUI.id dSoft =
      .ok (Server.updateStats
        { dSoft with files := [] ++ { fileUI with status := "deleted" } :: [] }) ∧
    (∀ g ∈ Server.getFiles {} ([] ++ { fileUI with status := "deleted" } :: []),
      g.id ≠ fileUI.id) ∧
    (Server.updateStats
        { dSoft with files := [] ++ { fileUI with status := "deleted" } :: [] }).settings.totalFiles
      + 1 = dSoft.settings.totalFiles ∧
    Server.getFile fileUI.id (Server.updateStats
      { dSoft with files := [] ++ { fileUI with status := "deleted" } :: [] }) =
        .error .notFound ∧
    Server.deleteFile "wind" fileUI.id (Server.updateStats
        { dSoft with files := [] ++ { fileUI with status := "deleted" } :: [] }) =
      .ok (Server.updateStats
        { dSoft with files := [] ++ { fileUI with status := "deleted" } :: [] }) :=
  softDelete_behaviour dSoft [] [] fileUI rfl (by decide) (by decide) rfl (by decide)

/-! ### C10 — the id scheme of created preset entities -/

theorem decChars_of_lt (n : Nat) (h : n < 10) : decChars n = [Nat.digitChar n] := by
  rw [decChars]
  simp [h]

theorem decChars_of_ge (n : Nat) (h : ¬ n < 10) :
    decChars n = decChars (n / 10) ++ [Nat.digitChar (n % 10)] := by
  rw [decChars]
  simp [h]

theorem charVal_digitChar (d : Nat) (h : d < 10) : charVal (Nat.digitChar d) = d := by
  interval_cases d <;> decide

theorem toDigitsCore_eq_decChars : ∀ (fuel n : Nat) (ds : List Char), n < fuel →
    Nat.toDigitsCore 10 fuel n ds = decChars n ++ ds := by
  intro fuel
  induction fuel with
  | zero => intro n ds h; exact absurd h (Nat.not_lt_zero n)
  | succ fuel ih =>
    intro n ds h
    by_cases h10 : n < 10
    · have hdiv : n / 10 = 0 := Nat.div_eq_of_lt h10
      simp [Nat.toDigitsCore, hdiv, decChars_of_lt n h10, Nat.mod_eq_of_lt h10]
    · have hdiv : ¬ n / 10 = 0 := by omega
      have hlt : n / 10 < fuel := by
        have hx : n / 10 < n := Nat.div_lt_self (by omega) (by omega)
        omega
      rw [show Nat.toDigitsCore 10 (fuel+1) n ds =
        Nat.toDigitsCore 10 fuel (n / 10) (Nat.digitChar (n % 10) :: ds) by
          simp [Nat.toDigitsCore, hdiv]]
      rw [ih (n / 10) (Nat.digitChar (n % 10) :: ds) hlt]
      rw [decChars_of_ge n h10]
      simp

theorem repr_eq_decChars (n : Nat) : Nat.repr n = (decChars n).asString := by
  show (Nat.toDigits 10 n).asString = _
  unfold Nat.toDigits
  rw [toDigitsCore_eq_decChars (n+1) n [] (Nat.lt_succ_self n)]
  simp

theorem valOf_go (l : List Char) (c : Char) (a : Nat) :
    (l ++ [c]).foldl (fun a c => a * 10 + charVal c) a =
      (l.foldl (fun a c => a * 10 + charVal c) a) * 10 + charVal c := by
  rw [List.foldl_append]
  rfl

theorem valOf_decChars (n : Nat) : valOf (decChars n) = n := by
  induction n using Nat.strong_induction_on with
  | _ n ih =>
    by_cases h : n < 10
    · rw [decChars_of_lt n h]
      show 0 * 10 + charVal (Nat.digitChar n) = n
      rw [charVal_digitChar n h]
      omega
    · rw [decChars_of_ge n h]
      unfold valOf
      rw [valOf_go]
      have hlt : n / 10 < n := Nat.div_lt_self (by omega) (by omega)
      have hv := ih (n / 10) hlt
      unfold valOf at hv
      rw [hv, charVal_digitChar (n % 10) (Nat.mod_lt n (by omega))]
      omega

theorem repr_injective (m n : Nat) (h : Nat.repr m = Nat.repr n) : m = n := by
  rw [repr_eq_decChars, repr_eq_decChars] at h
  have hd : decChars m = decChars n := congrArg String.data h
  have hv := congrArg valOf hd
  rwa [valOf_decChars, valOf_decChars] at hv

/-- C10: the id a create call assigns is exactly the kind marker
(`tag_`, `model_` or `category_`) followed by the decimal `Date.now()`
value, and depends on nothing else — neither the request body nor the
catalog state. Hence two same-kind create calls evaluated at the same
clock millisecond assign equal ids, and ids of a kind differ exactly when
the milliseconds differ. -/
theorem created_id_scheme :
    (∀ (now : Nat) (tb : Server.TagBody) (d : AppData) (t : PresetTag) (d2 : AppData),
      Server.addTag now tb d = .ok (t, d2) → t.id = "tag_" ++ Nat.repr now) ∧
    (∀ (now : Nat) (nb : Server.NamedBody) (d : AppData) (m : PresetModel) (d2 : AppData),
      Server.addModel now nb d = .ok (m, d2) → m.id = "model_" ++ Nat.repr now) ∧
    (∀ (now : Nat) (nb : Server.NamedBody) (d : AppData) (c : PresetCategory) (d2 : AppData),
      Server.addCategory now nb d = .ok (c, d2) → c.id = "category_" ++ Nat.repr now) ∧
    (∀ n1 n2 : Nat, ("tag_" ++ Nat.repr n1 = "tag_" ++ Nat.repr n2) ↔ n1 = n2) := by
  refine ⟨?_, ?_, ?_, ?_⟩
  · intro now tb d t d2 h
    rw [Server.addTag] at h
    by_cases hname : tb.name = ""
    · rw [if_pos hname] at h
      cases h
    · rw [if_neg hname] at h
      simp only [Except.ok.injEq, Prod.mk.injEq] at h
      rw [← h.1]
      rfl
  · intro now nb d m d2 h
    rw [Server.addModel] at h
    by_cases hname : nb.name = ""
    · rw [if_pos hname] at h
      cases h
    · rw [if_neg hname] at h
      simp only [Except.ok.injEq, Prod.mk.injEq] at h
      rw [← h.1]
      rfl
  · intro now nb d c d2 h
    rw [Server.addCategory] at h
    by_cases hname : nb.name = ""
    · rw [if_pos hname] at h
      cases h
    · rw [if_neg hname] at h
      simp only [Except.ok.injEq, Prod.mk.injEq] at h
      rw [← h.1]
      rfl
  · intro n1 n2
    constructor
    · intro h
      apply repr_injective
      have hd := congrArg String.data h
      rw [String.data_append, String.data_append] at hd
      exact congrArg String.mk (List.append_cancel_left hd)
    · intro h
      rw [h]

/-- Witness for `created_id_scheme`: a tag created at millisecond 7 gets
id `tag_7`, and the ids of milliseconds 3 and 5 differ. -/
theorem created_id_scheme_witness :
    (Server.mkTag 7 { name := "x" }).id = "tag_" ++ Nat.repr 7 ∧
    (("tag_" ++ Nat.repr 3 = "tag_" ++ Nat.repr 5) ↔ (3 : Nat) = 5) :=
  ⟨created_id_scheme.1 7 { name := "x" } dTag0 (Server.mkTag 7 { name := "x" })
      (Server.updateStats
        { dTag0 with preset_tags := dTag0.preset_tags ++ [Server.mkTag 7 { name := "x" }] })
      (by rw [Server.addTag, if_neg (by decide)]),
   created_id_scheme.2.2.2 3 5⟩
